import Mathlib

/-
  Verification of the offline audio player's persistent media library and
  playback-state coordinator (src/App.tsx, src/services/db.ts, src/types.ts).

  Shallow embedding notes:
  - Binary blobs (File/Blob values) are modelled by Nat tokens: the code never
    inspects their bytes, it only stores them and hands them to the platform.
  - Object URLs (the "ephemeral handles" produced by URL.createObjectURL) are
    modelled by Nat handles drawn from a fresh counter `nextHandle`; the set of
    created-but-not-revoked URLs is tracked in `liveHandles`.
    URL.revokeObjectURL on an already-revoked URL is a platform no-op, which
    `List.erase` mirrors (erasing an absent element is the identity).
  - The IndexedDB object store (services/db.ts, store "tracks", keyPath id,
    autoIncrement) is modelled by the list `store` plus the key generator
    `nextDbId`; every issued store operation is appended to the `events` trace.
  - React state updates inside one handler are modelled as one atomic state
    transformation; the effect that binds `audio.src` to a new currentTrackUrl
    and starts playback (App.tsx lines 44-51) is folded into the handler that
    changes currentTrackUrl.  The cleanup effect at lines 53-59 only ever
    revokes a URL the handlers have already revoked (a platform no-op), so it
    does not change `liveHandles` and is not modelled separately.
  - currentTrackUrl is a string in the code with '' meaning "no URL"; it is
    modelled as Option Nat with none for ''.
  - Purely presentational handlers (drag and drop plumbing, seek and volume
    wiring, Bluetooth routing) own no library or playback-coordinator state
    relevant to the verified properties and are outside this embedding.
-/

namespace OfflinePlayer

/-- Track record, from src/types.ts: id, name, audio blob (`file`), optional
cover art and optional video. -/
structure Track where
  id : Nat
  name : String
  file : Nat
  coverArt : Option Nat := none
  video : Option Nat := none
deriving Repr, DecidableEq

/-- An incoming file from the file picker or drag-and-drop: its filename and
its blob content token. -/
structure MFile where
  name : String
  blob : Nat
deriving Repr, DecidableEq

/-- Payload of the track editor's save action (App.tsx handleEditorSave
argument `updatedData`): target id plus optional replacement cover art and
video files. -/
structure EditPatch where
  id : Nat
  coverArt : Option Nat := none
  video : Option Nat := none
deriving Repr, DecidableEq

/-- Trace entries for the externally visible calls the verified claims talk
about: IndexedDB operations (services/db.ts) and object-URL lifecycle calls. -/
inductive Event where
  | dbAdd (name : String) (file : Nat)
  | dbDelete (id : Nat)
  | dbPut (t : Track)
  | materialize (h : Nat)
  | release (h : Nat)
deriving Repr, DecidableEq

/-- Combined state of the App component, the audio sink it drives, and the
backing IndexedDB store. -/
structure AppState where
  /-- React state `tracks`: the in-memory library. -/
  tracks : List Track
  /-- Contents of the IndexedDB object store "tracks". -/
  store : List Track
  /-- The store's autoIncrement key generator (IndexedDB starts at 1). -/
  nextDbId : Nat
  /-- React state `currentTrackId` (null modelled as none). -/
  currentTrackId : Option Nat
  /-- React state `isPlaying`. -/
  isPlaying : Bool
  /-- React state `currentTrackUrl` (the empty string modelled as none). -/
  currentTrackUrl : Option Nat
  /-- Object URLs created and not yet revoked. -/
  liveHandles : List Nat
  /-- Fresh-handle counter for URL.createObjectURL. -/
  nextHandle : Nat
  /-- The audio element's src attribute ('' modelled as none). -/
  sinkSrc : Option Nat
  /-- The audio element's currentTime. -/
  sinkTime : Nat
  /-- Number of play() commands issued to the audio element. -/
  sinkPlayCount : Nat
  /-- React state `isNowPlayingVisible`. -/
  isNowPlayingVisible : Bool
  /-- React state `editingTrackId`. -/
  editingTrackId : Option Nat
  /-- Trace of issued store and handle operations, oldest first. -/
  events : List Event
deriving Repr, DecidableEq

/-- Startup state: empty library and store, nothing loaded, nothing playing. -/
def initState : AppState :=
  { tracks := [], store := [], nextDbId := 1, currentTrackId := none,
    isPlaying := false, currentTrackUrl := none, liveHandles := [],
    nextHandle := 0, sinkSrc := none, sinkTime := 0, sinkPlayCount := 0,
    isNowPlayingVisible := false, editingTrackId := none, events := [] }

/-- JS `a || b` on two optional object values (File objects are always
truthy, so this is exactly "first if present, else second"). -/
def jsOr (a b : Option Nat) : Option Nat :=
  match a with
  | some x => some x
  | none => b

/-- JS `name.replace(/\.[^/.]+$/, "")`: drop a trailing dot-extension whose
extension part is nonempty and contains neither a dot nor a slash
(App.tsx line 65). -/
def stripExt (n : String) : String :=
  let rev := n.data.reverse
  let ext := rev.takeWhile (fun c => c ≠ '.' ∧ c ≠ '/')
  match rev.drop ext.length with
  | '.' :: rest => if ext.isEmpty then n else ⟨rest.reverse⟩
  | _ => n

/-- URL.revokeObjectURL(currentTrackUrl) when currentTrackUrl is nonempty;
does not itself clear currentTrackUrl (callers decide that, as in the code). -/
def revokeCurrent (s : AppState) : AppState :=
  match s.currentTrackUrl with
  | some u =>
      { s with liveHandles := s.liveHandles.erase u,
               events := s.events ++ [Event.release u] }
  | none => s

/-- App.tsx handlePlayPause (lines 93-96): `if (!currentTrackId) return;`
(null and the falsy id 0 both bail out), otherwise flip isPlaying.  The
play/pause effect at lines 113-121 then issues play() when the new flag is
true. -/
def handlePlayPause (s : AppState) : AppState :=
  match s.currentTrackId with
  | none => s
  | some i =>
      if i == 0 then s
      else
        { s with isPlaying := !s.isPlaying,
                 sinkPlayCount :=
                   if !s.isPlaying then s.sinkPlayCount + 1
                   else s.sinkPlayCount }

/-- The rebind arm of handleTrackSelect (App.tsx lines 100-107, with the
src-binding effect of lines 44-51 folded in): revoke the previous URL, store
the new id, materialize a fresh object URL, bind it to the sink and start
playback. -/
def rebindTo (s : AppState) (i : Nat) : AppState :=
  let s1 := revokeCurrent s
  { s1 with currentTrackId := some i,
            currentTrackUrl := some s1.nextHandle,
            liveHandles := s1.liveHandles ++ [s1.nextHandle],
            nextHandle := s1.nextHandle + 1,
            events := s1.events ++ [Event.materialize s1.nextHandle],
            isPlaying := true,
            sinkSrc := some s1.nextHandle,
            sinkPlayCount := s1.sinkPlayCount + 1 }

/-- App.tsx handleTrackSelect (lines 98-111).  Selecting a present track that
differs from the current one rebinds to it; selecting the current track is
handlePlayPause; selecting an absent id does nothing. -/
def handleTrackSelect (s : AppState) (i : Nat) : AppState :=
  match s.tracks.find? (fun t => t.id == i) with
  | none => s
  | some track =>
      if s.currentTrackId = some track.id then
        handlePlayPause s
      else
        rebindTo s i

/-- The active-track arm of handleTrackDelete (App.tsx lines 79-88): stop
transport, clear the active id, clear the sink source, revoke and clear the
URL, hide the now-playing view. -/
def clearActive (s : AppState) : AppState :=
  let sa := revokeCurrent
    { s with isPlaying := false, currentTrackId := none, sinkSrc := none }
  { sa with currentTrackUrl := none, isNowPlayingVisible := false }

/-- The unconditional tail of handleTrackDelete (App.tsx lines 89-90): delete
the record from the store (IndexedDB delete succeeds even for absent keys)
and filter it out of the in-memory library. -/
def removeRecord (s1 : AppState) (i : Nat) : AppState :=
  { s1 with store := s1.store.filter (fun t => t.id != i),
            events := s1.events ++ [Event.dbDelete i],
            tracks := s1.tracks.filter (fun t => t.id != i) }

/-- App.tsx handleTrackDelete (lines 78-91). -/
def handleTrackDelete (s : AppState) (i : Nat) : AppState :=
  removeRecord (if s.currentTrackId = some i then clearActive s else s) i

/-- One addTrackToDB call (services/db.ts lines 34-44) for one picked file:
on success the store appends a record carrying the generated key and the
extension-stripped name; on rejection (StorageError) the store is unchanged.
Returns the record the caller builds from the resolved id, or none. -/
def insertOne (s : AppState) (f : MFile) (ok : Bool) : AppState × Option Track :=
  let nm := stripExt f.name
  if ok then
    let t : Track := { id := s.nextDbId, name := nm, file := f.blob }
    ({ s with store := s.store ++ [t], nextDbId := s.nextDbId + 1,
              events := s.events ++ [Event.dbAdd nm f.blob] }, some t)
  else
    ({ s with events := s.events ++ [Event.dbAdd nm f.blob] }, none)

/-- All the per-file inserts of one batch, in order (each file paired with
whether its insert succeeds); returns the resulting state, the records of the
successful inserts in order, and whether any insert failed. -/
def runInserts (s : AppState) : List (MFile × Bool) → AppState × List Track × Bool
  | [] => (s, [], false)
  | fb :: rest =>
      let p := insertOne s fb.fst fb.snd
      let r := runInserts p.fst rest
      match p.snd with
      | some t => (r.fst, t :: r.snd.fst, r.snd.snd)
      | none => (r.fst, r.snd.fst, true)

/-- App.tsx handleFilesSelected (lines 61-76): every file's insert is issued;
the results are collected with Promise.all, so if any insert rejects the
catch path runs and setTracks is skipped — the in-memory library is only
extended when the whole batch succeeded.  The Bool result records whether the
batch-level failure path ran. -/
def handleFilesSelected (s : AppState) (files : List (MFile × Bool)) :
    AppState × Bool :=
  if (runInserts s files).snd.snd then ((runInserts s files).fst, true)
  else
    ({ (runInserts s files).fst with
        tracks := (runInserts s files).fst.tracks ++ (runInserts s files).snd.fst },
     false)

/-- IndexedDB put (services/db.ts updateTrackInDB, lines 71-81): replace the
record with the matching key, or append when no such key exists (upsert). -/
def putStore (st : List Track) (u : Track) : List Track :=
  if st.any (fun t => t.id == u.id) then
    st.map (fun t => if t.id == u.id then u else t)
  else st ++ [u]

/-- App.tsx handleEditorSave (lines 185-198): look the id up in the in-memory
library and return silently when absent (no store call); otherwise merge the
patch onto the original with JS `patch.field || original.field`, put the
merged record to the store, swap it into the library and close the editor. -/
def handleEditorSave (s : AppState) (p : EditPatch) : AppState :=
  match s.tracks.find? (fun t => t.id == p.id) with
  | none => s
  | some orig =>
      let updated : Track :=
        { orig with coverArt := jsOr p.coverArt orig.coverArt,
                    video := jsOr p.video orig.video }
      { s with store := putStore s.store updated,
               events := s.events ++ [Event.dbPut updated],
               tracks := s.tracks.map (fun t => if t.id == p.id then updated else t),
               editingTrackId := none }

/-- Array.prototype.findIndex: index of the first element satisfying the
test, or -1. -/
def findIdxJS (p : Track → Bool) : List Track → Int
  | [] => -1
  | t :: ts =>
      if p t then 0
      else
        let r := findIdxJS p ts
        if r = -1 then -1 else r + 1

/-- The `handleTrackSelect(tracks[idx].id)` step shared by playNextTrack and
playPrevTrack; the out-of-range guard is unreachable in the source because the
computed index is always reduced mod the (nonzero) length. -/
def selectIndex (s : AppState) (idx : Nat) : AppState :=
  match s.tracks[idx]? with
  | some tn => handleTrackSelect s tn.id
  | none => s

/-- App.tsx playNextTrack (lines 123-135): no-op on an empty library; with a
single-track library whose track is active, rewind the sink to 0 and play
again in place; otherwise select the track at (findIndex(active) + 1) mod
count (JS findIndex gives -1 when the active id is absent). -/
def playNextTrack (s : AppState) : AppState :=
  if s.tracks.length = 0 then s
  else if s.tracks.length = 1 ∧ s.currentTrackId = (s.tracks[0]?).map Track.id then
    { s with sinkTime := 0, sinkPlayCount := s.sinkPlayCount + 1 }
  else
    let currentIndex : Int :=
      findIdxJS (fun t => s.currentTrackId == some t.id) s.tracks
    selectIndex s ((currentIndex + 1) % (s.tracks.length : Int)).toNat

/-- App.tsx playPrevTrack (lines 137-142): no-op below two tracks; otherwise
select the track at (findIndex(active) - 1 + count) mod count. -/
def playPrevTrack (s : AppState) : AppState :=
  if s.tracks.length < 2 then s
  else
    let currentIndex : Int :=
      findIdxJS (fun t => s.currentTrackId == some t.id) s.tracks
    selectIndex s
      ((currentIndex - 1 + (s.tracks.length : Int)) % (s.tracks.length : Int)).toNat

/-- The audio element's onEnded wiring (App.tsx line 274): the track-end
signal triggers playNextTrack. -/
def onEnded (s : AppState) : AppState := playNextTrack s

/-- User- or system-originated intents accepted by the coordinator. -/
inductive Intent where
  | select (id : Nat)
  | toggle
  | next
  | prev
  | ended
  | delete (id : Nat)
  | ingest (files : List (MFile × Bool))
  | edit (p : EditPatch)
deriving Repr, DecidableEq

/-- Dispatch one intent to its handler. -/
def applyIntent (s : AppState) : Intent → AppState
  | Intent.select i => handleTrackSelect s i
  | Intent.toggle => handlePlayPause s
  | Intent.next => playNextTrack s
  | Intent.prev => playPrevTrack s
  | Intent.ended => onEnded s
  | Intent.delete i => handleTrackDelete s i
  | Intent.ingest fs => (handleFilesSelected s fs).fst
  | Intent.edit p => handleEditorSave s p

/-- Run a sequence of intents from startup. -/
def run (l : List Intent) : AppState := l.foldl applyIntent initState

/-! ### Reachable-state invariants

The two state invariants claimed by the specification: the set of live
object URLs is exactly the current one (none, or the single bound URL), and
an active track id exists exactly when a bound URL exists. -/

/-- Conjunction of the handle-lifetime invariant and the id/handle
consistency invariant. -/
def StateInv (s : AppState) : Prop :=
  s.liveHandles = s.currentTrackUrl.toList
  ∧ s.currentTrackId.isSome = s.currentTrackUrl.isSome

theorem stateInv_initState : StateInv initState := ⟨rfl, rfl⟩

theorem handlePlayPause_fields (s : AppState) :
    (handlePlayPause s).liveHandles = s.liveHandles
    ∧ (handlePlayPause s).currentTrackUrl = s.currentTrackUrl
    ∧ (handlePlayPause s).currentTrackId = s.currentTrackId
    ∧ (handlePlayPause s).tracks = s.tracks
    ∧ (handlePlayPause s).store = s.store
    ∧ (handlePlayPause s).events = s.events
    ∧ (handlePlayPause s).nextHandle = s.nextHandle := by
  unfold handlePlayPause
  cases hc : s.currentTrackId with
  | none => simp [hc]
  | some i =>
      by_cases h0 : (i == 0) = true
      · simp [h0, hc]
      · simp [h0, hc]

theorem stateInv_handlePlayPause (s : AppState) (h : StateInv s) :
    StateInv (handlePlayPause s) := by
  have hf := handlePlayPause_fields s
  constructor
  · rw [hf.1, hf.2.1]; exact h.1
  · rw [hf.2.2.1, hf.2.1]; exact h.2

theorem stateInv_rebindTo (s : AppState) (i : Nat) (h : StateInv s) :
    StateInv (rebindTo s i) := by
  unfold rebindTo revokeCurrent
  cases hu : s.currentTrackUrl with
  | none =>
      have h1 : s.liveHandles = [] := by simpa [hu, Option.toList] using h.1
      exact ⟨by simp [h1, Option.toList], by simp⟩
  | some u =>
      have h1 : s.liveHandles = [u] := by simpa [hu, Option.toList] using h.1
      exact ⟨by simp [h1, Option.toList], by simp⟩

theorem stateInv_handleTrackSelect (s : AppState) (i : Nat) (h : StateInv s) :
    StateInv (handleTrackSelect s i) := by
  unfold handleTrackSelect
  cases hf : s.tracks.find? (fun t => t.id == i) with
  | none => exact h
  | some track =>
      by_cases hcond : s.currentTrackId = some track.id
      · simpa [hcond] using stateInv_handlePlayPause s h
      · simpa [hcond] using stateInv_rebindTo s i h

theorem stateInv_clearActive (s : AppState) (h : StateInv s) :
    StateInv (clearActive s) := by
  unfold clearActive revokeCurrent
  cases hu : s.currentTrackUrl with
  | none =>
      have h1 : s.liveHandles = [] := by simpa [hu, Option.toList] using h.1
      exact ⟨by simp [h1, Option.toList], by simp⟩
  | some u =>
      have h1 : s.liveHandles = [u] := by simpa [hu, Option.toList] using h.1
      exact ⟨by simp [h1, Option.toList], by simp⟩

theorem stateInv_handleTrackDelete (s : AppState) (i : Nat) (h : StateInv s) :
    StateInv (handleTrackDelete s i) := by
  unfold handleTrackDelete removeRecord
  split
  · have hc := stateInv_clearActive s h
    exact ⟨hc.1, hc.2⟩
  · exact ⟨h.1, h.2⟩

theorem stateInv_selectIndex (s : AppState) (idx : Nat) (h : StateInv s) :
    StateInv (selectIndex s idx) := by
  unfold selectIndex
  cases hm : s.tracks[idx]? with
  | none => exact h
  | some tn => exact stateInv_handleTrackSelect s tn.id h

theorem stateInv_playNextTrack (s : AppState) (h : StateInv s) :
    StateInv (playNextTrack s) := by
  unfold playNextTrack
  split
  · exact h
  · split
    · exact ⟨h.1, h.2⟩
    · exact stateInv_selectIndex s _ h

theorem stateInv_playPrevTrack (s : AppState) (h : StateInv s) :
    StateInv (playPrevTrack s) := by
  unfold playPrevTrack
  split
  · exact h
  · exact stateInv_selectIndex s _ h

theorem insertOne_playback (s : AppState) (f : MFile) (ok : Bool) :
    ((insertOne s f ok).fst).tracks = s.tracks
    ∧ ((insertOne s f ok).fst).currentTrackId = s.currentTrackId
    ∧ ((insertOne s f ok).fst).currentTrackUrl = s.currentTrackUrl
    ∧ ((insertOne s f ok).fst).liveHandles = s.liveHandles := by
  unfold insertOne
  cases ok <;> simp

theorem runInserts_playback (fs : List (MFile × Bool)) : ∀ s : AppState,
    ((runInserts s fs).fst).tracks = s.tracks
    ∧ ((runInserts s fs).fst).currentTrackId = s.currentTrackId
    ∧ ((runInserts s fs).fst).currentTrackUrl = s.currentTrackUrl
    ∧ ((runInserts s fs).fst).liveHandles = s.liveHandles := by
  induction fs with
  | nil => intro s; exact ⟨rfl, rfl, rfl, rfl⟩
  | cons fb rest ih =>
      intro s
      unfold runInserts
      have hone := insertOne_playback s fb.fst fb.snd
      have hr := ih (insertOne s fb.fst fb.snd).fst
      cases hp : (insertOne s fb.fst fb.snd).snd <;>
        simp only [hp] <;>
        exact ⟨hr.1.trans hone.1, hr.2.1.trans hone.2.1,
               hr.2.2.1.trans hone.2.2.1, hr.2.2.2.trans hone.2.2.2⟩

theorem stateInv_handleFilesSelected (s : AppState) (fs : List (MFile × Bool))
    (h : StateInv s) : StateInv ((handleFilesSelected s fs).fst) := by
  have hr := runInserts_playback fs s
  unfold handleFilesSelected
  cases hb : (runInserts s fs).snd.snd with
  | true =>
      simp only [hb, if_true]
      exact ⟨by rw [hr.2.2.2, hr.2.2.1]; exact h.1,
             by rw [hr.2.1, hr.2.2.1]; exact h.2⟩
  | false =>
      simp only [hb, Bool.false_eq_true, if_false]
      exact ⟨by simp only [hr.2.2.2, hr.2.2.1]; exact h.1,
             by simp only [hr.2.1, hr.2.2.1]; exact h.2⟩

theorem stateInv_handleEditorSave (s : AppState) (p : EditPatch)
    (h : StateInv s) : StateInv (handleEditorSave s p) := by
  unfold handleEditorSave
  cases hf : s.tracks.find? (fun t => t.id == p.id) with
  | none => exact h
  | some orig => exact ⟨h.1, h.2⟩

theorem stateInv_applyIntent (s : AppState) (it : Intent) (h : StateInv s) :
    StateInv (applyIntent s it) := by
  cases it with
  | select i => exact stateInv_handleTrackSelect s i h
  | toggle => exact stateInv_handlePlayPause s h
  | next => exact stateInv_playNextTrack s h
  | prev => exact stateInv_playPrevTrack s h
  | ended => exact stateInv_playNextTrack s h
  | delete i => exact stateInv_handleTrackDelete s i h
  | ingest fs => exact stateInv_handleFilesSelected s fs h
  | edit p => exact stateInv_handleEditorSave s p h

theorem stateInv_foldl (l : List Intent) : ∀ s : AppState, StateInv s →
    StateInv (l.foldl applyIntent s) := by
  induction l with
  | nil => intro s h; exact h
  | cons it rest ih =>
      intro s h
      exact ih (applyIntent s it) (stateInv_applyIntent s it h)

theorem stateInv_run (l : List Intent) : StateInv (run l) :=
  stateInv_foldl l initState stateInv_initState

/-! ### Example states used to instantiate theorems with concrete inputs -/

def trackA : Track := { id := 1, name := "A", file := 10 }

def trackB : Track := { id := 2, name := "B", file := 20 }

def trackC : Track := { id := 3, name := "C", file := 30 }

/-- A three-track library with track 2 active, bound to live object URL 0. -/
def exState3 : AppState :=
  { initState with
      tracks := [trackA, trackB, trackC], store := [trackA, trackB, trackC],
      nextDbId := 4, currentTrackId := some 2, isPlaying := true,
      currentTrackUrl := some 0, liveHandles := [0], nextHandle := 1,
      sinkSrc := some 0 }

/-- A one-track library with its track active, mid-playback. -/
def exState1 : AppState :=
  { initState with
      tracks := [trackA], store := [trackA], nextDbId := 2,
      currentTrackId := some 1, isPlaying := true, currentTrackUrl := some 0,
      liveHandles := [0], nextHandle := 1, sinkSrc := some 0, sinkTime := 7 }

/-- A batch of three picked files whose second insert fails. -/
def exBatch : List (MFile × Bool) :=
  [({ name := "a.mp3", blob := 1 }, true),
   ({ name := "b.mp3", blob := 2 }, false),
   ({ name := "c.mp3", blob := 3 }, true)]

/-- An edit patch for an id that is not in exState3's library. -/
def exPatchMissing : EditPatch := { id := 9, coverArt := some 55 }

/-- An edit patch that replaces track 1's cover art and leaves video alone. -/
def exPatchCover : EditPatch := { id := 1, coverArt := some 77 }

/-! ### Claims C1 and C2: handle-lifetime and consistency invariants -/

/-- Claim C1: for every sequence of coordinator intents — in particular every
sequence of selectTrack and deleteTrack intents — at most one audio object
URL is unreleased at any time: handleTrackSelect revokes the previous URL in
the same step that materializes and binds the new one, so two live handles
never coexist. -/
theorem at_most_one_live_handle (l : List Intent) :
    ((run l).liveHandles).length ≤ 1 := by
  have h := (stateInv_run l).1
  rw [h]
  cases (run l).currentTrackUrl <;> simp [Option.toList]

/-- Claim C2: after every coordinator operation settles, the active track id
(currentTrackId) is non-null exactly when the active handle (currentTrackUrl,
the empty string modelled as none) is non-null. -/
theorem active_handle_consistency (l : List Intent) :
    ((run l).currentTrackId).isSome = ((run l).currentTrackUrl).isSome :=
  (stateInv_run l).2

/-! ### Claim C3: partial ingest failure -/

theorem runInserts_store_length (fs : List (MFile × Bool)) : ∀ s : AppState,
    ((runInserts s fs).fst).store.length
      = s.store.length + (fs.filter (fun fb => fb.snd)).length := by
  induction fs with
  | nil => intro s; simp [runInserts]
  | cons fb rest ih =>
      intro s
      obtain ⟨f, ok⟩ := fb
      cases ok with
      | true =>
          simp [runInserts, insertOne, ih]
          omega
      | false =>
          simp [runInserts, insertOne, ih]

theorem runInserts_failed (fs : List (MFile × Bool)) : ∀ s : AppState,
    (runInserts s fs).snd.snd = fs.any (fun fb => !fb.snd) := by
  induction fs with
  | nil => intro s; rfl
  | cons fb rest ih =>
      intro s
      obtain ⟨f, ok⟩ := fb
      cases ok with
      | true => simp [runInserts, insertOne, ih]
      | false => simp [runInserts, insertOne, ih]

/-- Claim C3, counterexample: for the concrete batch of 3 files whose 2nd
insert fails, the completed ingest leaves the in-memory library with 0 new
records (the store keeps the 2 successful inserts), so the claimed "exactly
2 records are added to the library" is false on the code. -/
theorem ingest_partial_claim_counterexample :
    ((handleFilesSelected initState exBatch).fst).tracks.length = 0
    ∧ ((handleFilesSelected initState exBatch).fst).store.length = 2
    ∧ ¬ ((handleFilesSelected initState exBatch).fst).tracks.length = 2 := by
  decide

/-- Claim C3, amended: when any file of a batch fails its store insert, the
batch completes with every successful insert persisted in the store and the
batch-level failure reported, but the in-memory library is left unchanged
(0 records appended, not the successful ones), because Promise.all rejects
and the setTracks call is skipped. -/
theorem ingest_batch_failure (s : AppState) (files : List (MFile × Bool))
    (hfail : files.any (fun fb => !fb.snd) = true) :
    ((handleFilesSelected s files).fst).tracks = s.tracks
    ∧ (handleFilesSelected s files).snd = true
    ∧ ((handleFilesSelected s files).fst).store.length
        = s.store.length + (files.filter (fun fb => fb.snd)).length := by
  have hflag : (runInserts s files).snd.snd = true := by
    rw [runInserts_failed]; exact hfail
  unfold handleFilesSelected
  rw [if_pos hflag]
  exact ⟨(runInserts_playback files s).1, rfl, runInserts_store_length files s⟩

/-- Claim C3, witness for the amended theorem at the concrete 3-file batch. -/
theorem ingest_batch_failure_witness :
    exBatch.any (fun fb => !fb.snd) = true
    ∧ (((handleFilesSelected initState exBatch).fst).tracks = initState.tracks
      ∧ (handleFilesSelected initState exBatch).snd = true
      ∧ ((handleFilesSelected initState exBatch).fst).store.length
          = initState.store.length + (exBatch.filter (fun fb => fb.snd)).length) :=
  ⟨by decide, ingest_batch_failure initState exBatch (by decide)⟩

/-! ### Claim C4: edit of an absent id is rejected before the store -/

/-- Claim C4: when the patched id is absent from the in-memory library,
handleEditorSave returns with the entire state unchanged — in particular the
store contents, the trace of issued store operations, and the in-memory
library are exactly as before, so the rejection is decided locally before
any store call. -/
theorem edit_missing_id_rejected_locally (s : AppState) (p : EditPatch)
    (habs : ∀ t ∈ s.tracks, t.id ≠ p.id) :
    handleEditorSave s p = s := by
  have hf : s.tracks.find? (fun t => t.id == p.id) = none := by
    rw [List.find?_eq_none]
    intro t ht
    simp [habs t ht]
  unfold handleEditorSave
  rw [hf]

/-- Claim C4, witness at a concrete library and absent id. -/
theorem edit_missing_id_rejected_locally_witness :
    (∀ t ∈ exState3.tracks, t.id ≠ exPatchMissing.id)
    ∧ handleEditorSave exState3 exPatchMissing = exState3 :=
  ⟨by decide, edit_missing_id_rejected_locally exState3 exPatchMissing (by decide)⟩

/-! ### Claim C6: loop-of-one on track end -/

/-- Claim C6: when the library holds exactly one track and it is the active
one, the track-end signal rewinds the sink to position zero and issues one
more play command, while the active id, the bound URL, the set of live
handles, the fresh-handle counter, the store and handle call trace, the
library and the transport flag are all unchanged: no track switch and no
handle churn. -/
theorem loop_of_one (s : AppState) (t : Track)
    (htr : s.tracks = [t]) (hact : s.currentTrackId = some t.id) :
    (onEnded s).sinkTime = 0
    ∧ (onEnded s).sinkPlayCount = s.sinkPlayCount + 1
    ∧ (onEnded s).currentTrackId = s.currentTrackId
    ∧ (onEnded s).currentTrackUrl = s.currentTrackUrl
    ∧ (onEnded s).liveHandles = s.liveHandles
    ∧ (onEnded s).nextHandle = s.nextHandle
    ∧ (onEnded s).events = s.events
    ∧ (onEnded s).tracks = s.tracks
    ∧ (onEnded s).isPlaying = s.isPlaying := by
  have hlen1 : s.tracks.length = 1 := by rw [htr]; rfl
  have hcond : s.tracks.length = 1
      ∧ s.currentTrackId = (s.tracks[0]?).map Track.id := by
    refine ⟨hlen1, ?_⟩
    rw [htr, hact]
    rfl
  unfold onEnded playNextTrack
  rw [if_neg (by omega), if_pos hcond]
  exact ⟨rfl, rfl, rfl, rfl, rfl, rfl, rfl, rfl, rfl⟩

/-- Claim C6, witness at the concrete one-track state. -/
theorem loop_of_one_witness :
    exState1.tracks = [trackA] ∧ exState1.currentTrackId = some trackA.id
    ∧ ((onEnded exState1).sinkTime = 0
      ∧ (onEnded exState1).sinkPlayCount = exState1.sinkPlayCount + 1
      ∧ (onEnded exState1).currentTrackId = exState1.currentTrackId
      ∧ (onEnded exState1).currentTrackUrl = exState1.currentTrackUrl
      ∧ (onEnded exState1).liveHandles = exState1.liveHandles
      ∧ (onEnded exState1).nextHandle = exState1.nextHandle
      ∧ (onEnded exState1).events = exState1.events
      ∧ (onEnded exState1).tracks = exState1.tracks
      ∧ (onEnded exState1).isPlaying = exState1.isPlaying) :=
  ⟨rfl, rfl, loop_of_one exState1 trackA rfl rfl⟩

/-! ### Claim C7: deleting the active track resets to idle -/

theorem clearActive_fields (s : AppState)
    (hlive : s.liveHandles = s.currentTrackUrl.toList) :
    (clearActive s).isPlaying = false
    ∧ (clearActive s).currentTrackId = none
    ∧ (clearActive s).currentTrackUrl = none
    ∧ (clearActive s).sinkSrc = none
    ∧ (clearActive s).liveHandles = []
    ∧ (clearActive s).tracks = s.tracks
    ∧ (clearActive s).store = s.store := by
  unfold clearActive revokeCurrent
  cases hu : s.currentTrackUrl with
  | none =>
      rw [hu] at hlive
      simp only [Option.toList] at hlive
      simp [hu, hlive]
  | some u =>
      rw [hu] at hlive
      simp only [Option.toList] at hlive
      simp [hu, hlive]

/-- Claim C7: for every state whose active track is X and whose live-handle
set matches the bound URL (the reachable-state invariant), deleting X stops
transport, clears the active id, releases the handle (no live handles
remain), clears the sink source, and removes every record with X's id from
both the in-memory library and the store. -/
theorem delete_active_resets_idle (s : AppState) (x : Nat)
    (hact : s.currentTrackId = some x)
    (hlive : s.liveHandles = s.currentTrackUrl.toList) :
    (handleTrackDelete s x).isPlaying = false
    ∧ (handleTrackDelete s x).currentTrackId = none
    ∧ (handleTrackDelete s x).currentTrackUrl = none
    ∧ (handleTrackDelete s x).sinkSrc = none
    ∧ (handleTrackDelete s x).liveHandles = []
    ∧ (∀ t ∈ (handleTrackDelete s x).tracks, t.id ≠ x)
    ∧ (∀ t ∈ (handleTrackDelete s x).store, t.id ≠ x) := by
  have hc := clearActive_fields s hlive
  unfold handleTrackDelete removeRecord
  rw [if_pos hact]
  refine ⟨hc.1, hc.2.1, hc.2.2.1, hc.2.2.2.1, hc.2.2.2.2.1, ?_, ?_⟩
  · intro t ht
    have hm := (List.mem_filter.mp ht).2
    simpa using hm
  · intro t ht
    have hm := (List.mem_filter.mp ht).2
    simpa using hm

/-- Claim C7, witness at the concrete three-track state with track 2 active
and playing. -/
theorem delete_active_resets_idle_witness :
    exState3.currentTrackId = some 2
    ∧ exState3.liveHandles = exState3.currentTrackUrl.toList
    ∧ ((handleTrackDelete exState3 2).isPlaying = false
      ∧ (handleTrackDelete exState3 2).currentTrackId = none
      ∧ (handleTrackDelete exState3 2).currentTrackUrl = none
      ∧ (handleTrackDelete exState3 2).sinkSrc = none
      ∧ (handleTrackDelete exState3 2).liveHandles = []
      ∧ (∀ t ∈ (handleTrackDelete exState3 2).tracks, t.id ≠ 2)
      ∧ (∀ t ∈ (handleTrackDelete exState3 2).store, t.id ≠ 2)) :=
  ⟨rfl, rfl, delete_active_resets_idle exState3 2 rfl rfl⟩

/-! ### Claim C8: selecting the active track is exactly togglePlayPause -/

/-- Claim C8: whenever X is the current active track and is present in the
library, handleTrackSelect X is literally the same state transformation as
handlePlayPause: no handle is released or materialized and the whole
resulting state coincides. -/
theorem select_active_is_toggle (s : AppState) (x : Nat) (t : Track)
    (ht : t ∈ s.tracks) (hid : t.id = x) (hact : s.currentTrackId = some x) :
    handleTrackSelect s x = handlePlayPause s := by
  have hs : (s.tracks.find? (fun u => u.id == x)).isSome :=
    List.find?_isSome.mpr ⟨t, ht, by simp [hid]⟩
  obtain ⟨u, hu⟩ := Option.isSome_iff_exists.mp hs
  have huid : u.id = x := by simpa using List.find?_some hu
  unfold handleTrackSelect
  simp only [hu]
  rw [if_pos (by rw [huid]; exact hact)]

/-- Claim C8, witness: selecting active track 2 in the concrete state equals
toggling. -/
theorem select_active_is_toggle_witness :
    trackB ∈ exState3.tracks ∧ trackB.id = 2
    ∧ exState3.currentTrackId = some 2
    ∧ handleTrackSelect exState3 2 = handlePlayPause exState3 :=
  ⟨by decide, rfl, rfl,
   select_active_is_toggle exState3 2 trackB (by decide) rfl rfl⟩

/-! ### Claim C9: edit merges the patch and preserves untouched fields -/

theorem find?_map_update (k : Nat) (m : Track) (hm : m.id = k) :
    ∀ l : List Track, (∃ u ∈ l, u.id = k) →
    (l.map (fun t => if t.id == k then m else t)).find? (fun t => t.id == k)
      = some m := by
  intro l
  induction l with
  | nil =>
      intro hex
      rcases hex with ⟨u, hu, _⟩
      simp at hu
  | cons a ts ih =>
      intro hex
      by_cases ha : (a.id == k) = true
      · simp [List.find?, ha, hm]
      · have hex2 : ∃ u ∈ ts, u.id = k := by
          rcases hex with ⟨u, hu, huk⟩
          rcases List.mem_cons.mp hu with rfl | h2
          · exact absurd (by simp [huk]) ha
          · exact ⟨u, h2, huk⟩
        have ha2 : (a.id == k) = false := by simpa using ha
        rw [List.map_cons]
        have hhead : (if (a.id == k) = true then m else a) = a := by
          rw [ha2]
          simp
        rw [hhead, List.find?_cons_of_neg]
        · exact ih hex2
        · simp [ha2]

/-- Claim C9: when the patched id is present, the record the edit produces
keeps the original id, name and audio blob, replaces coverArt and video by
the patched file when one is given, and keeps the previous value (including
absence) for an unpatched optional field. -/
theorem edit_preserves_untouched_fields (s : AppState) (p : EditPatch)
    (orig : Track)
    (hfind : s.tracks.find? (fun t => t.id == p.id) = some orig) :
    (handleEditorSave s p).tracks.find? (fun t => t.id == p.id)
      = some { orig with coverArt := jsOr p.coverArt orig.coverArt,
                         video := jsOr p.video orig.video }
    ∧ (p.coverArt = none → jsOr p.coverArt orig.coverArt = orig.coverArt)
    ∧ (p.video = none → jsOr p.video orig.video = orig.video) := by
  have horig : orig.id = p.id := by simpa using List.find?_some hfind
  have hmem : orig ∈ s.tracks := List.mem_of_find?_eq_some hfind
  refine ⟨?_, ?_, ?_⟩
  · unfold handleEditorSave
    simp only [hfind]
    exact find?_map_update p.id
      { orig with coverArt := jsOr p.coverArt orig.coverArt,
                  video := jsOr p.video orig.video }
      horig s.tracks ⟨orig, hmem, horig⟩
  · intro h; rw [h]; rfl
  · intro h; rw [h]; rfl

/-! ### Claims C5 and C10: circular advance -/

theorem toNat_cast_mod (a b : Nat) :
    (((a : Int)) % (b : Int)).toNat = a % b := by
  rw [← Int.natCast_mod]
  exact Int.toNat_natCast _

theorem findIdxJS_eq_of_first (p : Track → Bool) :
    ∀ (l : List Track) (i : Nat) (t : Track),
      l[i]? = some t → p t = true →
      (∀ j u, j < i → l[j]? = some u → p u = false) →
      findIdxJS p l = (i : Int) := by
  intro l
  induction l with
  | nil => intro i t hget _ _; simp at hget
  | cons a ts ih =>
      intro i t hget hp hfirst
      cases i with
      | zero =>
          simp only [List.getElem?_cons_zero, Option.some_inj] at hget
          subst hget
          simp [findIdxJS, hp]
      | succ n =>
          have ha : p a = false := hfirst 0 a (Nat.succ_pos n) (by simp)
          have hr : findIdxJS p ts = (n : Int) :=
            ih n t (by simpa using hget) hp
              (fun j u hj hju => hfirst (j+1) u (by omega) (by simpa using hju))
          have hne : ¬ ((n : Int) = -1) := by omega
          simp only [findIdxJS, ha, Bool.false_eq_true, if_false, hr, hne]
          push_cast
          ring

theorem findIdxJS_eq_neg_one (p : Track → Bool) :
    ∀ l : List Track, (∀ u ∈ l, p u = false) → findIdxJS p l = -1 := by
  intro l
  induction l with
  | nil => intro _; rfl
  | cons a ts ih =>
      intro h
      have ha : p a = false := h a (List.mem_cons_self a ts)
      have hr : findIdxJS p ts = -1 :=
        ih (fun u hu => h u (List.mem_cons_of_mem a hu))
      simp [findIdxJS, ha, hr]

theorem nodup_ids_ne (l : List Track) (hnd : (l.map Track.id).Nodup)
    (i j : Nat) (ti tj : Track) (hi : l[i]? = some ti) (hj : l[j]? = some tj)
    (hij : i ≠ j) : ti.id ≠ tj.id := by
  intro he
  have hi2 : (l.map Track.id)[i]? = some ti.id := by simp [hi]
  have hj2 : (l.map Track.id)[j]? = some tj.id := by simp [hj]
  rw [← he] at hj2
  have hlen : i < (l.map Track.id).length :=
    (List.getElem?_eq_some_iff.mp hi2).1
  exact hij (List.getElem?_inj hlen hnd (hi2.trans hj2.symm))

theorem rebindTo_currentTrackId (s : AppState) (k : Nat) :
    (rebindTo s k).currentTrackId = some k := by
  unfold rebindTo revokeCurrent
  cases s.currentTrackUrl <;> rfl

theorem handleTrackSelect_new (s : AppState) (k : Nat)
    (hex : ∃ u ∈ s.tracks, u.id = k) (hcur : s.currentTrackId ≠ some k) :
    (handleTrackSelect s k).currentTrackId = some k := by
  obtain ⟨w, hw, hwid⟩ := hex
  have hs : (s.tracks.find? (fun t => t.id == k)).isSome :=
    List.find?_isSome.mpr ⟨w, hw, by simp [hwid]⟩
  obtain ⟨u, hu⟩ := Option.isSome_iff_exists.mp hs
  have huid : u.id = k := by simpa using List.find?_some hu
  unfold handleTrackSelect
  simp only [hu]
  rw [if_neg (by rw [huid]; exact hcur)]
  exact rebindTo_currentTrackId s k

theorem selectIndex_sets (s : AppState) (idx : Nat) (tn : Track)
    (hget : s.tracks[idx]? = some tn)
    (hcur : s.currentTrackId ≠ some tn.id) :
    (selectIndex s idx).currentTrackId = some tn.id := by
  unfold selectIndex
  simp only [hget]
  exact handleTrackSelect_new s tn.id ⟨tn, List.getElem?_mem hget, rfl⟩ hcur

/-- Claim C5: on a library of at least two tracks with distinct ids whose
active track sits at index i, playNextTrack selects the track at index
(i + 1) mod count and playPrevTrack the track at index (i + count - 1) mod
count, wrapping at both ends of the current ordering; with zero tracks both
advances are no-ops, and playPrevTrack is a no-op whenever the library has
fewer than two tracks. -/
theorem advance_circular :
    (∀ (s : AppState) (t : Track) (i : Nat),
      2 ≤ s.tracks.length → (s.tracks.map Track.id).Nodup →
      s.tracks[i]? = some t → s.currentTrackId = some t.id →
      ((playNextTrack s).currentTrackId
          = (s.tracks[(i + 1) % s.tracks.length]?).map Track.id)
      ∧ ((playPrevTrack s).currentTrackId
          = (s.tracks[(i + s.tracks.length - 1) % s.tracks.length]?).map Track.id))
    ∧ (∀ s : AppState, s.tracks.length = 0 →
        playNextTrack s = s ∧ playPrevTrack s = s)
    ∧ (∀ s : AppState, s.tracks.length < 2 → playPrevTrack s = s) := by
  refine ⟨?_, ?_, ?_⟩
  · intro s t i hlen hnd hget hact
    have hi_lt : i < s.tracks.length := (List.getElem?_eq_some_iff.mp hget).1
    have hfind : findIdxJS (fun u => s.currentTrackId == some u.id) s.tracks
        = (i : Int) := by
      apply findIdxJS_eq_of_first _ _ _ _ hget
      · simp [hact]
      · intro j u hj hju
        have hne : u.id ≠ t.id :=
          nodup_ids_ne s.tracks hnd j i u t hju hget (by omega)
        simp only [hact, beq_eq_false_iff_ne, ne_eq, Option.some.injEq]
        exact fun h => hne h.symm
    constructor
    · -- playNextTrack
      have hnext_lt : (i + 1) % s.tracks.length < s.tracks.length :=
        Nat.mod_lt _ (by omega)
      obtain ⟨tn, hgetn⟩ : ∃ tn, s.tracks[(i + 1) % s.tracks.length]? = some tn := by
        rw [List.getElem?_eq_getElem hnext_lt]
        exact ⟨_, rfl⟩
      have hidx_ne : i ≠ (i + 1) % s.tracks.length := by
        rcases Nat.lt_or_ge (i + 1) s.tracks.length with h | h
        · rw [Nat.mod_eq_of_lt h]; omega
        · have h1 : i + 1 = s.tracks.length := by omega
          rw [h1, Nat.mod_self]; omega
      have hne : t.id ≠ tn.id :=
        nodup_ids_ne s.tracks hnd i ((i + 1) % s.tracks.length) t tn
          hget hgetn hidx_ne
      unfold playNextTrack
      rw [if_neg (by omega), if_neg (fun hc => by omega)]
      simp only [hfind]
      have hcast : (((i : Int) + 1) % ((s.tracks.length : Nat) : Int)).toNat
          = (i + 1) % s.tracks.length := by
        have h1 : ((i : Int) + 1) = ((i + 1 : Nat) : Int) := by push_cast; ring
        rw [h1, toNat_cast_mod]
      rw [hcast, selectIndex_sets s _ tn hgetn
        (by rw [hact]; simp only [ne_eq, Option.some.injEq]; exact hne), hgetn]
      rfl
    · -- playPrevTrack
      have hprev_lt : (i + s.tracks.length - 1) % s.tracks.length
          < s.tracks.length := Nat.mod_lt _ (by omega)
      obtain ⟨tp, hgetp⟩ :
          ∃ tp, s.tracks[(i + s.tracks.length - 1) % s.tracks.length]? = some tp := by
        rw [List.getElem?_eq_getElem hprev_lt]
        exact ⟨_, rfl⟩
      have hidx_ne : i ≠ (i + s.tracks.length - 1) % s.tracks.length := by
        rcases Nat.eq_zero_or_pos i with h0 | h0
        · subst h0
          rw [Nat.zero_add, Nat.mod_eq_of_lt (by omega)]
          omega
        · have h1 : i + s.tracks.length - 1 = (i - 1) + s.tracks.length := by omega
          rw [h1, Nat.add_mod_right, Nat.mod_eq_of_lt (by omega)]
          omega
      have hne : t.id ≠ tp.id :=
        nodup_ids_ne s.tracks hnd i ((i + s.tracks.length - 1) % s.tracks.length)
          t tp hget hgetp hidx_ne
      unfold playPrevTrack
      rw [if_neg (by omega)]
      simp only [hfind]
      have hcast : (((i : Int) - 1 + ((s.tracks.length : Nat) : Int))
            % ((s.tracks.length : Nat) : Int)).toNat
          = (i + s.tracks.length - 1) % s.tracks.length := by
        have h1 : ((i : Int) - 1 + ((s.tracks.length : Nat) : Int))
            = ((i + s.tracks.length - 1 : Nat) : Int) := by omega
        rw [h1, toNat_cast_mod]
      rw [hcast, selectIndex_sets s _ tp hgetp
        (by rw [hact]; simp only [ne_eq, Option.some.injEq]; exact hne), hgetp]
      rfl
  · intro s h0
    constructor
    · unfold playNextTrack
      rw [if_pos h0]
    · unfold playPrevTrack
      rw [if_pos (by omega)]
  · intro s h1
    unfold playPrevTrack
    rw [if_pos h1]

/-- Claim C5, witness: the three parts applied at the three-track state with
track 2 active at index 1, at the startup state with an empty library, and
at the one-track state. -/
theorem advance_circular_witness :
    (2 ≤ exState3.tracks.length ∧ (exState3.tracks.map Track.id).Nodup
      ∧ exState3.tracks[1]? = some trackB
      ∧ exState3.currentTrackId = some trackB.id
      ∧ ((playNextTrack exState3).currentTrackId
          = (exState3.tracks[(1 + 1) % exState3.tracks.length]?).map Track.id)
      ∧ ((playPrevTrack exState3).currentTrackId
          = (exState3.tracks[(1 + exState3.tracks.length - 1)
              % exState3.tracks.length]?).map Track.id))
    ∧ (initState.tracks.length = 0
      ∧ playNextTrack initState = initState
      ∧ playPrevTrack initState = initState)
    ∧ (exState1.tracks.length < 2 ∧ playPrevTrack exState1 = exState1) := by
  refine ⟨⟨by decide, by decide, by decide, rfl, ?_, ?_⟩, ⟨rfl, ?_, ?_⟩, ⟨by decide, ?_⟩⟩
  · exact (advance_circular.1 exState3 trackB 1 (by decide) (by decide)
      (by decide) rfl).1
  · exact (advance_circular.1 exState3 trackB 1 (by decide) (by decide)
      (by decide) rfl).2
  · exact (advance_circular.2.1 initState rfl).1
  · exact (advance_circular.2.1 initState rfl).2
  · exact advance_circular.2.2 exState1 (by decide)

/-- Claim C10: on a library of at least two tracks with no active track (the
computed findIndex is -1), playNextTrack selects the first track and
playPrevTrack selects the second-to-last track. -/
theorem advance_without_active (s : AppState)
    (hlen : 2 ≤ s.tracks.length)
    (hno : ∀ u ∈ s.tracks, s.currentTrackId ≠ some u.id) :
    ((playNextTrack s).currentTrackId = (s.tracks[0]?).map Track.id)
    ∧ ((playPrevTrack s).currentTrackId
        = (s.tracks[s.tracks.length - 2]?).map Track.id) := by
  have hfind : findIdxJS (fun u => s.currentTrackId == some u.id) s.tracks
      = -1 :=
    findIdxJS_eq_neg_one _ _ (fun u hu => by
      simp only [beq_eq_false_iff_ne]
      exact hno u hu)
  constructor
  · obtain ⟨t0, h0⟩ : ∃ t0, s.tracks[0]? = some t0 := by
      rw [List.getElem?_eq_getElem (by omega)]
      exact ⟨_, rfl⟩
    unfold playNextTrack
    rw [if_neg (by omega), if_neg (fun hc => by omega)]
    simp only [hfind]
    have hidx : (((-1 : Int) + 1) % ((s.tracks.length : Nat) : Int)).toNat
        = 0 := by norm_num
    rw [hidx, selectIndex_sets s 0 t0 h0 (hno t0 (List.getElem?_mem h0)), h0]
    rfl
  · obtain ⟨tp, hp⟩ : ∃ tp, s.tracks[s.tracks.length - 2]? = some tp := by
      rw [List.getElem?_eq_getElem (by omega)]
      exact ⟨_, rfl⟩
    unfold playPrevTrack
    rw [if_neg (by omega)]
    simp only [hfind]
    have hidx : (((-1 : Int) - 1 + ((s.tracks.length : Nat) : Int))
          % ((s.tracks.length : Nat) : Int)).toNat
        = s.tracks.length - 2 := by
      have h1 : ((-1 : Int) - 1 + ((s.tracks.length : Nat) : Int))
          = ((s.tracks.length - 2 : Nat) : Int) := by omega
      rw [h1, toNat_cast_mod, Nat.mod_eq_of_lt (by omega)]
    rw [hidx, selectIndex_sets s _ tp hp (hno tp (List.getElem?_mem hp)), hp]
    rfl

/-- A three-track library with no active track. -/
def exStateIdle3 : AppState :=
  { initState with
      tracks := [trackA, trackB, trackC], store := [trackA, trackB, trackC],
      nextDbId := 4 }

/-- Claim C10, witness at the concrete idle three-track state. -/
theorem advance_without_active_witness :
    2 ≤ exStateIdle3.tracks.length
    ∧ (∀ u ∈ exStateIdle3.tracks, exStateIdle3.currentTrackId ≠ some u.id)
    ∧ (((playNextTrack exStateIdle3).currentTrackId
          = (exStateIdle3.tracks[0]?).map Track.id)
      ∧ ((playPrevTrack exStateIdle3).currentTrackId
          = (exStateIdle3.tracks[exStateIdle3.tracks.length - 2]?).map Track.id)) :=
  ⟨by decide, by decide,
   advance_without_active exStateIdle3 (by decide) (by decide)⟩

/-- Claim C9, witness: patching track 1's cover art in the concrete state. -/
theorem edit_preserves_untouched_fields_witness :
    exState3.tracks.find? (fun t => t.id == exPatchCover.id) = some trackA
    ∧ ((handleEditorSave exState3 exPatchCover).tracks.find?
          (fun t => t.id == exPatchCover.id)
        = some { trackA with
                  coverArt := jsOr exPatchCover.coverArt trackA.coverArt,
                  video := jsOr exPatchCover.video trackA.video }
      ∧ (exPatchCover.coverArt = none →
          jsOr exPatchCover.coverArt trackA.coverArt = trackA.coverArt)
      ∧ (exPatchCover.video = none →
          jsOr exPatchCover.video trackA.video = trackA.video)) :=
  ⟨by decide,
   edit_preserves_untouched_fields exState3 exPatchCover trackA (by decide)⟩

end OfflinePlayer
